import Mathlib

/-!
Verification of the bounded-concurrency job dispatcher
(`scripts/jobs/main_parallel.py`, class `ParallelProcessing`).

The Python class is shallowly embedded: constructor resolution becomes pure
functions on `Int`, Python truthiness becomes a `Bool`-valued function on a
small universe of Python values, pool construction becomes a record of what
the `Pool` / `ThreadPool` call receives, and the body of `run` together with
the worker wrapper `_execute` becomes a small-step transition system whose
states carry the admission counter (`self._queue.value`), the not-yet-submitted
jobs, the in-flight jobs, the submission trace and the shared result dict.
-/

namespace ParallelProcessing

/-- Python exceptions that the embedded fragments can raise. -/
inductive PyErr where
  | notImplementedError
  | runtime (code : Nat)
deriving DecidableEq, Repr

/-- A small universe of Python values, enough to decide truthiness the way
`if shared_vars:` does. -/
inductive PyVal where
  | pyNone
  | pyBool (b : Bool)
  | pyInt (n : Int)
  | pyList (elems : List Nat)
  | pyDict (entries : List (Nat × Nat))

/-- Python truthiness, as used by the guard `if shared_vars:` in `run`:
`None`, `False`, `0`, empty list and empty dict are falsy. -/
def truthy : PyVal → Bool
  | PyVal.pyNone => false
  | PyVal.pyBool b => b
  | PyVal.pyInt n => n != 0
  | PyVal.pyList l => !l.isEmpty
  | PyVal.pyDict d => !d.isEmpty

/-- `self._n_jobs = n_jobs if n_jobs >= 0 else cpu_count()` from `__init__`. -/
def resolve_n_jobs (n_jobs : Int) (cpu_count : Nat) : Int :=
  if n_jobs ≥ 0 then n_jobs else (cpu_count : Int)

/-- `self._waiting_time = waiting_time if waiting_time >= 0 else 60 * 60`
from `__init__`. -/
def resolve_waiting_time (waiting_time : Int) : Int :=
  if waiting_time ≥ 0 then waiting_time else 60 * 60

/-- The constructed dispatcher state after `__init__(n_jobs, waiting_time)`
on a host with `cpu_count` cores. -/
structure Dispatcher where
  n_jobs : Int
  waiting_time : Int

/-- `ParallelProcessing.__init__`. -/
def mkDispatcher (n_jobs : Int) (waiting_time : Int) (cpu_count : Nat) : Dispatcher :=
  { n_jobs := resolve_n_jobs n_jobs cpu_count,
    waiting_time := resolve_waiting_time waiting_time }

/-- Default `process` body: `raise NotImplementedError(...)`. It never
returns a value. -/
def process_default (args : List PyVal) : Except PyErr Unit :=
  Except.error PyErr.notImplementedError

/-- Default `critical_section` body: `raise NotImplementedError(...)`. -/
def critical_section_default (args : List PyVal) (kwargs : List (Nat × PyVal)) :
    Except PyErr PyVal :=
  Except.error PyErr.notImplementedError

/-- Lock events emitted by the `with par_lock:` block of `_enter_crit_sec`. -/
inductive LockEvent where
  | acquire
  | release
deriving DecidableEq, Repr

/-- The `with par_lock:` statement: acquire the lock, run the body, and
release the lock on both exit paths — normal return and raised exception —
propagating the body's outcome. -/
def with_par_lock {ρ : Type} (body : Unit → Except PyErr ρ) :
    List LockEvent × Except PyErr ρ :=
  match body () with
  | Except.ok r => ([LockEvent.acquire, LockEvent.release], Except.ok r)
  | Except.error e => ([LockEvent.acquire, LockEvent.release], Except.error e)

/-- `_enter_crit_sec(*args)`: runs `self.critical_section(*args)` under
`par_lock` and returns its result. The first component is the sequence of
lock events, the second the propagated outcome. -/
def enter_crit_sec {ρ : Type} (critical_section : List PyVal → Except PyErr ρ)
    (args : List PyVal) : List LockEvent × Except PyErr ρ :=
  with_par_lock (fun _ => critical_section args)

/-- `_error_callback(result)`: `self._logger.error(result)` then
`os._exit(1)`. The first component is the emitted log record, the second
the process exit status. -/
def error_callback (result : PyErr) : List PyErr × Nat :=
  ([result], 1)

/-- One positional argument of the pool's `initargs` tuple: either the
`Lock()` handle (first position) or one of the extra shared values. -/
def InitArg (V : Type) : Type := Unit ⊕ V

/-- Default `get_shared_vars(manager, shared_vars)`: `return tuple()`. -/
def get_shared_vars_default {V : Type} : Unit → List V := fun _ => []

/-- Lines 140–143 of `run`: `init_args = (Lock(),) + self.get_shared_vars(...)`
when `shared_vars` is truthy, else `init_args = (Lock(),)`. The second
component records whether the `get_shared_vars` extension point was invoked. -/
def mk_init_args {V : Type} (shared_vars : PyVal) (get_shared_vars : Unit → List V) :
    List (InitArg V) × Bool :=
  if truthy shared_vars then
    (Sum.inl () :: (get_shared_vars ()).map Sum.inr, true)
  else
    ([Sum.inl ()], false)

/-- What the pool constructor call receives: the worker count and, when the
`Pool(...)` branch is taken, the `init_child` hook with its `initargs`;
`none` means no worker-start hook was installed. -/
structure PoolSpec (V : Type) where
  processes : Int
  init_hook : Option (List (InitArg V))

/-- Lines 145–146 of `run`: `Pool(processes=self._n_jobs, initializer=
self.init_child, initargs=init_args)` when `use_multithreading` is false,
else `ThreadPool(processes=self._n_jobs)` (which receives no hook). -/
def mk_pool {V : Type} (n_jobs : Int) (use_multithreading : Bool)
    (shared_vars : PyVal) (get_shared_vars : Unit → List V) : PoolSpec V :=
  let ia := (mk_init_args shared_vars get_shared_vars).1
  if !use_multithreading then
    { processes := n_jobs, init_hook := some ia }
  else
    { processes := n_jobs, init_hook := none }

/-- `init_child(par_lock_, *args)`: stores its first positional argument as
the worker-global `par_lock`. -/
def init_child {V : Type} (initargs : List (InitArg V)) : Option (InitArg V) :=
  initargs.head?

/-- The worker-local `par_lock` after the pool starts a worker: the result
of running the installed hook, or nothing when no hook was installed. -/
def worker_par_lock {V : Type} (spec : PoolSpec V) : Option (InitArg V) :=
  match spec.init_hook with
  | some ia => init_child ia
  | none => none

/-- One job of the input `args_list`: its argument tuple, and what the
overridden `process` does when invoked on it — either return normally after
writing some entries to the shared `resp_dict`, or raise an exception. -/
structure Job (α κ ν : Type) where
  args : List α
  behavior : Except PyErr (List (κ × ν))

/-- The argument tuple passed to `pool.apply_async` for a job:
`resp_args = args + (resp_dict,)` — the job's own arguments followed by a
single trailing reference to the shared result dict (`Sum.inr ()`). -/
def submitTuple {α κ ν : Type} (j : Job α κ ν) : List (α ⊕ Unit) :=
  j.args.map Sum.inl ++ [Sum.inr ()]

/-- State of one call to `run`: the admission counter `self._queue.value`,
the jobs not yet submitted (in input order), the submitted-but-unfinished
jobs, the submission trace (in submission order), the shared `resp_dict`
contents, and the number of decrements performed by workers. -/
structure RunState (α κ ν : Type) where
  queue : Int
  pending : List (Job α κ ν)
  inflight : List (Job α κ ν)
  submitted : List (Job α κ ν)
  sink : List (κ × ν)
  decs : Nat

/-- The state at the top of `run`'s submission loop: counter `0`, empty
`resp_dict`, nothing submitted. -/
def initState {α κ ν : Type} (jobs : List (Job α κ ν)) : RunState α κ ν :=
  { queue := 0, pending := jobs, inflight := [], submitted := [], sink := [], decs := 0 }

/-- A `run` execution: still running, or the whole process was terminated by
`os._exit` with the given status. -/
inductive Exec (α κ ν : Type) where
  | running (s : RunState α κ ν)
  | terminated (code : Nat)

/-- State after the submission loop admits the next job `j`: the counter is
incremented and `apply_async` is called with `j`'s tuple plus the trailing
result-dict reference. -/
def submitStep {α κ ν : Type} (s : RunState α κ ν) (j : Job α κ ν)
    (rest : List (Job α κ ν)) : RunState α κ ν :=
  { queue := s.queue + 1, pending := rest, inflight := j :: s.inflight,
    submitted := s.submitted ++ [j], sink := s.sink, decs := s.decs }

/-- State after a worker finishes `_execute` for job `j` normally: `process`
ran (writing `w` to `resp_dict`) and then `self._queue.value -= 1`. -/
def completeStep {α κ ν : Type} (s : RunState α κ ν) (l1 l2 : List (Job α κ ν))
    (w : List (κ × ν)) : RunState α κ ν :=
  { queue := s.queue - 1, pending := s.pending, inflight := l1 ++ l2,
    submitted := s.submitted, sink := s.sink ++ w, decs := s.decs + 1 }

/-- Small-step semantics of `run` with worker limit `n_jobs`, interleaving
the submission loop (lines 150–162) with worker completions (`_execute`,
lines 84–94) and the error callback (lines 96–106):
* `submit`: the loop sees `self._queue.value < self._n_jobs`, increments the
  counter and calls `apply_async` on the next job of `args_list`;
* `completeOk`: an in-flight job's `process` returns normally, then the
  worker decrements the counter;
* `completeFail`: an in-flight job's `process` raises, so the decrement is
  skipped and `_error_callback` logs the error and exits the process. -/
inductive Step {α κ ν : Type} (n_jobs : Int) : Exec α κ ν → Exec α κ ν → Prop where
  | submit (s : RunState α κ ν) (j : Job α κ ν) (rest : List (Job α κ ν))
      (hq : s.queue < n_jobs) (hp : s.pending = j :: rest) :
      Step n_jobs (Exec.running s) (Exec.running (submitStep s j rest))
  | completeOk (s : RunState α κ ν) (j : Job α κ ν) (l1 l2 : List (Job α κ ν))
      (hin : s.inflight = l1 ++ j :: l2) (w : List (κ × ν))
      (hok : j.behavior = Except.ok w) :
      Step n_jobs (Exec.running s) (Exec.running (completeStep s l1 l2 w))
  | completeFail (s : RunState α κ ν) (j : Job α κ ν) (l1 l2 : List (Job α κ ν))
      (hin : s.inflight = l1 ++ j :: l2) (e : PyErr)
      (herr : j.behavior = Except.error e) :
      Step n_jobs (Exec.running s) (Exec.terminated (error_callback e).2)

/-- Executions of `run` on input `jobs` with worker limit `n_jobs`. -/
abbrev Reach {α κ ν : Type} (jobs : List (Job α κ ν)) (n_jobs : Int)
    (e : Exec α κ ν) : Prop :=
  Relation.ReflTransGen (Step n_jobs) (Exec.running (initState jobs)) e

/-- The submission has drained: every job was submitted and every submitted
job finished, so `pool.join()` returns and `run` returns `resp_dict`. -/
def Drained {α κ ν : Type} (s : RunState α κ ν) : Prop :=
  s.pending = [] ∧ s.inflight = []

/-- What `run` hands back to the caller: the `resp_dict` contents, available
only from a drained running state; a terminated process returns nothing. -/
def runResult {α κ ν : Type} : Exec α κ ν → Option (List (κ × ν))
  | Exec.running s => if s.pending.isEmpty && s.inflight.isEmpty then some s.sink else none
  | Exec.terminated _ => none

/-- The `apply_async` call trace of a state, in submission order. -/
def asyncCalls {α κ ν : Type} (s : RunState α κ ν) : List (List (α ⊕ Unit)) :=
  s.submitted.map submitTuple

/-- The inductive invariant of the submission loop: the counter equals the
number of in-flight jobs, stays at most `n_jobs`, increments and decrements
balance against submissions, and the submitted and pending jobs partition
the input in order. -/
def Inv {α κ ν : Type} (jobs : List (Job α κ ν)) (n_jobs : Int)
    (s : RunState α κ ν) : Prop :=
  s.queue = (s.inflight.length : Int) ∧
  s.queue ≤ n_jobs ∧
  s.decs + s.inflight.length = s.submitted.length ∧
  s.submitted ++ s.pending = jobs

/-- A sample job whose `process` returns normally after writing `(0, 5)`. -/
def sampleJobOk : Job Nat Nat Nat :=
  { args := [2], behavior := Except.ok [(0, 5)] }

/-- A sample job whose `process` raises. -/
def sampleJobFail : Job Nat Nat Nat :=
  { args := [3], behavior := Except.error (PyErr.runtime 7) }

/-- The state after `run [sampleJobOk]` submits its only job. -/
def sampleSubmittedState : RunState Nat Nat Nat :=
  submitStep (initState [sampleJobOk]) sampleJobOk []

/-- The state after `run [sampleJobOk]` submits its only job and the worker
completes it. -/
def sampleDoneState : RunState Nat Nat Nat :=
  completeStep sampleSubmittedState [] [] [(0, 5)]

lemma inv_init {α κ ν : Type} (jobs : List (Job α κ ν)) (n_jobs : Int)
    (hn : 0 ≤ n_jobs) : Inv jobs n_jobs (initState jobs) := by
  refine ⟨rfl, hn, rfl, rfl⟩

lemma inv_preserved {α κ ν : Type} {jobs : List (Job α κ ν)} {n_jobs : Int}
    {s s' : RunState α κ ν}
    (hstep : Step n_jobs (Exec.running s) (Exec.running s'))
    (hinv : Inv jobs n_jobs s) : Inv jobs n_jobs s' := by
  obtain ⟨h1, h2, h3, h4⟩ := hinv
  cases hstep with
  | submit t j rest hq hp =>
      refine ⟨?_, ?_, ?_, ?_⟩
      · simp [submitStep, h1]
      · simp only [submitStep]
        omega
      · simp [submitStep]
        omega
      · simpa [submitStep, hp] using h4
  | completeOk t j l1 l2 hin w hok =>
      refine ⟨?_, ?_, ?_, ?_⟩
      · simp [completeStep, h1, hin]
        ring
      · simp only [completeStep]
        omega
      · simp only [completeStep, List.length_append]
        simp [hin] at h3
        omega
      · simpa [completeStep] using h4

/-- Every running state reachable in a `run` with a nonnegative worker limit
satisfies the loop invariant. -/
lemma reach_running_inv {α κ ν : Type} {jobs : List (Job α κ ν)} {n_jobs : Int}
    (hn : 0 ≤ n_jobs) {e : Exec α κ ν} (hr : Reach jobs n_jobs e) :
    ∀ s : RunState α κ ν, e = Exec.running s → Inv jobs n_jobs s := by
  induction hr with
  | refl =>
      intro s hs
      cases hs
      exact inv_init jobs n_jobs hn
  | tail hab hbc ih =>
      intro s hs
      subst hs
      cases hbc with
      | submit t j rest hq hp =>
          exact inv_preserved (Step.submit t j rest hq hp) (ih t rfl)
      | completeOk t j l1 l2 hin w hok =>
          exact inv_preserved (Step.completeOk t j l1 l2 hin w hok) (ih t rfl)

/-- When the input is empty or the worker limit is not positive, no step is
enabled at the initial state, so the only reachable execution is the initial
one: nothing is ever submitted. -/
lemma reach_stuck {α κ ν : Type} {jobs : List (Job α κ ν)} {n_jobs : Int}
    (h : jobs = [] ∨ n_jobs ≤ 0) {e : Exec α κ ν} (hr : Reach jobs n_jobs e) :
    e = Exec.running (initState jobs) := by
  induction hr with
  | refl => rfl
  | tail hab hbc ih =>
      subst ih
      cases hbc with
      | submit s j rest hq hp =>
          rcases h with h | h
          · simp [initState, h] at hp
          · simp only [initState] at hq
            omega
      | completeOk s j l1 l2 hin w hok =>
          simp [initState] at hin
      | completeFail s j l1 l2 hin e herr =>
          simp [initState] at hin

/-- A terminated execution can only arise from the error callback, whose
exit status is `1`. -/
lemma reach_terminated_code {α κ ν : Type} {jobs : List (Job α κ ν)}
    {n_jobs : Int} {c : Nat} (hr : Reach jobs n_jobs (Exec.terminated c)) :
    c = 1 := by
  rcases Relation.ReflTransGen.cases_tail hr with h | ⟨b, hb, hstep⟩
  · exact absurd h (by simp)
  · cases hstep
    rfl

/-- C8: the constructor replaces a negative `waiting_time` by the fallback
of one hour (3600 seconds) and keeps any non-negative `waiting_time`
(including 0) exactly as the sleep duration between admission retries. -/
theorem c8_poll_interval_resolution (w : Int) :
    (w < 0 → resolve_waiting_time w = 3600) ∧
    (0 ≤ w → resolve_waiting_time w = w) := by
  constructor
  · intro h
    rw [resolve_waiting_time, if_neg (by omega)]
    norm_num
  · intro h
    rw [resolve_waiting_time, if_pos h]

/-- C8 witness: the resolution evaluated at `-5`, `0` and `7`. -/
theorem c8_poll_interval_resolution_witness :
    resolve_waiting_time (-5) = 3600 ∧ resolve_waiting_time 0 = 0 ∧
    resolve_waiting_time 7 = 7 :=
  ⟨(c8_poll_interval_resolution (-5)).1 (by decide),
   (c8_poll_interval_resolution 0).2 (by decide),
   (c8_poll_interval_resolution 7).2 (by decide)⟩

/-- C3 counterexample: on an 8-core host, `n_jobs = 0` is NOT resolved to
the hardware core count — it stays `0`, and the admission guard
`queue < n_jobs` already fails at counter `0`, so no job is admitted. -/
theorem c3_zero_limit_counterexample :
    resolve_n_jobs 0 8 = 0 ∧ resolve_n_jobs 0 8 ≠ 8 ∧
    ¬ (initState ([] : List (Job Nat Nat Nat))).queue < resolve_n_jobs 0 8 := by
  refine ⟨rfl, by decide, by decide⟩

/-- C3 amended: a NEGATIVE `n_jobs` is resolved to the hardware core count,
while `n_jobs = 0` is kept as `0`; with a resolved limit of `0` the run
never leaves its initial state, so no job is admitted or executed. -/
theorem c3_worker_limit_resolution (cpu : Nat) (n : Int) (hn : n < 0)
    (jobs : List (Job Nat Nat Nat)) (e : Exec Nat Nat Nat)
    (hr : Reach jobs (resolve_n_jobs 0 cpu) e) :
    resolve_n_jobs n cpu = (cpu : Int) ∧ resolve_n_jobs 0 cpu = 0 ∧
    e = Exec.running (initState jobs) := by
  have h0 : resolve_n_jobs 0 cpu = 0 := by rw [resolve_n_jobs, if_pos le_rfl]
  refine ⟨?_, h0, ?_⟩
  · rw [resolve_n_jobs, if_neg (by omega)]
  · exact reach_stuck (Or.inr (le_of_eq h0)) hr

/-- C3 amended witness: resolution at `n_jobs = -1` and `0` on an 8-core
host, and the stuck empty run under limit `resolve_n_jobs 0 8`. -/
theorem c3_worker_limit_resolution_witness :
    resolve_n_jobs (-1) 8 = (8 : Int) ∧ resolve_n_jobs 0 8 = 0 ∧
    Exec.running (initState ([] : List (Job Nat Nat Nat))) =
      Exec.running (initState []) :=
  c3_worker_limit_resolution 8 (-1) (by decide) [] _ Relation.ReflTransGen.refl

/-- C7: the default `process` and the default `critical_section` raise
`NotImplementedError` on every invocation (so in particular the first one)
and never return a value. -/
theorem c7_unimplemented_extension_points (args : List PyVal)
    (kwargs : List (Nat × PyVal)) :
    process_default args = Except.error PyErr.notImplementedError ∧
    critical_section_default args kwargs = Except.error PyErr.notImplementedError ∧
    (∀ v : Unit, process_default args ≠ Except.ok v) ∧
    (∀ v : PyVal, critical_section_default args kwargs ≠ Except.ok v) := by
  refine ⟨rfl, rfl, ?_, ?_⟩ <;> intro v h <;> simp [process_default, critical_section_default] at h

/-- C7 witness: both defaults evaluated at the empty argument tuple. -/
theorem c7_unimplemented_extension_points_witness :
    process_default [] = Except.error PyErr.notImplementedError ∧
    critical_section_default [] [] = Except.error PyErr.notImplementedError ∧
    process_default [] ≠ Except.ok () :=
  ⟨(c7_unimplemented_extension_points [] []).1,
   (c7_unimplemented_extension_points [] []).2.1,
   (c7_unimplemented_extension_points [] []).2.2.1 ()⟩

/-- C6: `_enter_crit_sec` acquires the shared lock, runs `critical_section`
on the given arguments, releases the lock on every exit path (the event
trace is acquire-then-release whether the body returns or raises), and
hands back exactly the body's outcome — its value on normal return, its
exception otherwise. -/
theorem c6_crit_sec_gate {ρ : Type} (critical_section : List PyVal → Except PyErr ρ)
    (args : List PyVal) :
    (enter_crit_sec critical_section args).1 =
      [LockEvent.acquire, LockEvent.release] ∧
    (enter_crit_sec critical_section args).2 = critical_section args := by
  unfold enter_crit_sec with_par_lock
  cases critical_section args <;> simp

/-- C10: a falsy `shared_vars` (`None`, `0`, empty list, empty dict, …)
makes `run` skip the `get_shared_vars` extension point entirely and hand
the worker hook only the lock handle — the same `initargs` as when no
`shared_vars` is supplied at all. -/
theorem c10_falsy_shared_vars (sv : PyVal) (h : truthy sv = false)
    (gsv : Unit → List Nat) (n : Int) (mt : Bool) :
    mk_init_args sv gsv = ([Sum.inl ()], false) ∧
    mk_init_args sv gsv = mk_init_args PyVal.pyNone (get_shared_vars_default) ∧
    mk_pool n mt sv gsv = mk_pool n mt PyVal.pyNone get_shared_vars_default := by
  refine ⟨?_, ?_, ?_⟩ <;>
    simp [mk_pool, mk_init_args, h, show truthy PyVal.pyNone = false from rfl]

/-- C10 witness: the empty dict, empty list, `0` and `None` all yield the
lock-only `initargs` with the extension point not invoked, for a
`get_shared_vars` override that would otherwise contribute `[3]`. -/
theorem c10_falsy_shared_vars_witness :
    mk_init_args (PyVal.pyDict []) (fun _ => [3]) = ([Sum.inl ()], false) ∧
    mk_init_args (PyVal.pyList []) (fun _ => [3]) = ([Sum.inl ()], false) ∧
    mk_init_args (PyVal.pyInt 0) (fun _ => [3]) = ([Sum.inl ()], false) ∧
    mk_init_args PyVal.pyNone (fun _ => [3]) = ([Sum.inl ()], false) :=
  ⟨(c10_falsy_shared_vars (PyVal.pyDict []) rfl (fun _ => [3]) 0 false).1,
   (c10_falsy_shared_vars (PyVal.pyList []) rfl (fun _ => [3]) 0 false).1,
   (c10_falsy_shared_vars (PyVal.pyInt 0) (by decide) (fun _ => [3]) 0 false).1,
   (c10_falsy_shared_vars PyVal.pyNone rfl (fun _ => [3]) 0 false).1⟩

/-- C5 counterexample: with `use_multithreading = true` the pool is built as
`ThreadPool(processes=self._n_jobs)` with NO initializer hook — even when
`shared_vars` is truthy — so workers get no `par_lock` installed, refuting
the claim that the hook runs for either pool kind. -/
theorem c5_thread_pool_counterexample :
    (mk_pool (V := Nat) 4 true (PyVal.pyInt 5) (fun _ => [7])).init_hook = none ∧
    worker_par_lock (mk_pool (V := Nat) 4 true (PyVal.pyInt 5) (fun _ => [7])) = none := by
  exact ⟨rfl, rfl⟩

/-- C5 amended: only the process-based pool (`use_multithreading = false`)
installs the `init_child` hook; it receives the lock handle first, followed
by the extension point's extra shared values exactly when `shared_vars` is
truthy, and running it leaves every worker's `par_lock` set to the lock
handle. The thread-based pool installs no hook. -/
theorem c5_process_pool_init_hook {V : Type} (n : Int) (sv : PyVal)
    (gsv : Unit → List V) :
    (mk_pool n false sv gsv).init_hook =
      some (if truthy sv then Sum.inl () :: (gsv ()).map Sum.inr
            else [Sum.inl ()]) ∧
    worker_par_lock (mk_pool n false sv gsv) = some (Sum.inl ()) ∧
    (mk_pool (V := V) n true sv gsv).init_hook = none := by
  refine ⟨?_, ?_, rfl⟩ <;>
    cases h : truthy sv <;>
      simp [mk_pool, mk_init_args, worker_par_lock, init_child, h]

/-- C1: if any job's `process` raises, `_error_callback` logs the error and
exits the whole process with status `1` (non-zero), and no result mapping
is ever returned to the caller from that execution. -/
theorem c1_fail_fast_termination {α κ ν : Type} (jobs : List (Job α κ ν))
    (n_jobs : Int) (c : Nat) (hr : Reach jobs n_jobs (Exec.terminated c)) :
    c = 1 ∧ c ≠ 0 ∧
    (∀ err : PyErr, (error_callback err).1 = [err] ∧ (error_callback err).2 = 1) ∧
    runResult (Exec.terminated c : Exec α κ ν) = none := by
  have hc := reach_terminated_code hr
  subst hc
  exact ⟨rfl, by decide, fun err => ⟨rfl, rfl⟩, rfl⟩

/-- C1 witness: a one-job run whose job raises reaches the terminated
execution with exit status `1`. -/
theorem c1_fail_fast_termination_witness :
    (1 : Nat) = 1 ∧ (1 : Nat) ≠ 0 ∧
    (∀ err : PyErr, (error_callback err).1 = [err] ∧ (error_callback err).2 = 1) ∧
    runResult (Exec.terminated 1 : Exec Nat Nat Nat) = none :=
  c1_fail_fast_termination [sampleJobFail] 1 1
    (Relation.ReflTransGen.tail
      (Relation.ReflTransGen.single
        (Step.submit (initState [sampleJobFail]) sampleJobFail [] (by decide) rfl))
      (Step.completeFail (submitStep (initState [sampleJobFail]) sampleJobFail [])
        sampleJobFail [] [] rfl (PyErr.runtime 7) rfl))

/-- C2: in every run with a nonnegative worker limit, the admission counter
stays within `[0, n_jobs]`, always equals the number of submissions (each
an increment) minus the number of worker decrements — so each increment is
matched by at most one decrement, consumed by the in-flight jobs — and once
the run drains (normal return) the counter is `0` with every increment
matched by exactly one decrement. -/
theorem c2_admission_counter_invariant {α κ ν : Type} (jobs : List (Job α κ ν))
    (n_jobs : Int) (hn : 0 ≤ n_jobs) (s : RunState α κ ν)
    (hr : Reach jobs n_jobs (Exec.running s)) :
    (0 ≤ s.queue ∧ s.queue ≤ n_jobs) ∧
    s.queue = (s.submitted.length : Int) - (s.decs : Int) ∧
    s.decs + s.inflight.length = s.submitted.length ∧
    (Drained s → s.queue = 0 ∧ s.decs = s.submitted.length) := by
  obtain ⟨h1, h2, h3, h4⟩ := reach_running_inv hn hr s rfl
  refine ⟨⟨?_, h2⟩, ?_, h3, ?_⟩
  · rw [h1]
    exact_mod_cast Nat.zero_le _
  · omega
  · rintro ⟨hp, hi⟩
    rw [hi] at h1 h3
    constructor
    · simpa using h1
    · simpa using h3

/-- C2 witness: the invariant evaluated on the drained state of the one-job
run that submits and completes `sampleJobOk` under limit `1`. -/
theorem c2_admission_counter_invariant_witness :
    (0 ≤ sampleDoneState.queue ∧ sampleDoneState.queue ≤ 1) ∧
    sampleDoneState.queue =
      (sampleDoneState.submitted.length : Int) - (sampleDoneState.decs : Int) ∧
    sampleDoneState.decs + sampleDoneState.inflight.length =
      sampleDoneState.submitted.length ∧
    (Drained sampleDoneState →
      sampleDoneState.queue = 0 ∧
      sampleDoneState.decs = sampleDoneState.submitted.length) :=
  c2_admission_counter_invariant [sampleJobOk] 1 (by decide) sampleDoneState
    (Relation.ReflTransGen.tail
      (Relation.ReflTransGen.single
        (Step.submit (initState [sampleJobOk]) sampleJobOk [] (by decide) rfl))
      (Step.completeOk sampleSubmittedState sampleJobOk [] [] rfl [(0, 5)] rfl))

/-- C4: when the submission loop has consumed the whole input (which holds
whenever `run` returns), the `apply_async` trace is exactly the input jobs
in input order, each submitted once with its own argument tuple followed by
the single trailing `resp_dict` reference. -/
theorem c4_submit_once_in_order {α κ ν : Type} (jobs : List (Job α κ ν))
    (n_jobs : Int) (hn : 0 ≤ n_jobs) (s : RunState α κ ν)
    (hr : Reach jobs n_jobs (Exec.running s)) (hdone : s.pending = []) :
    s.submitted = jobs ∧
    asyncCalls s = jobs.map (fun j => j.args.map Sum.inl ++ [Sum.inr ()]) := by
  obtain ⟨h1, h2, h3, h4⟩ := reach_running_inv hn hr s rfl
  rw [hdone, List.append_nil] at h4
  exact ⟨h4, by rw [asyncCalls, h4]; rfl⟩

/-- C4 witness: the one-job run submits `sampleJobOk` exactly once, with the
trailing result-sink reference appended to its tuple. -/
theorem c4_submit_once_in_order_witness :
    sampleSubmittedState.submitted = [sampleJobOk] ∧
    asyncCalls sampleSubmittedState =
      [sampleJobOk].map (fun j => j.args.map Sum.inl ++ [Sum.inr ()]) :=
  c4_submit_once_in_order [sampleJobOk] 1 (by decide) sampleSubmittedState
    (Relation.ReflTransGen.single
      (Step.submit (initState [sampleJobOk]) sampleJobOk [] (by decide) rfl))
    rfl

/-- C9: with an empty `args_list` no step is enabled, so the run stays at
its initial state: nothing is submitted, `process` never runs (no worker
decrement ever happens), and `run` returns the empty result mapping. -/
theorem c9_empty_job_sequence {α κ ν : Type} (n_jobs : Int) (e : Exec α κ ν)
    (hr : Reach ([] : List (Job α κ ν)) n_jobs e) :
    e = Exec.running (initState []) ∧ runResult e = some [] ∧
    (initState ([] : List (Job α κ ν))).submitted = [] ∧
    (initState ([] : List (Job α κ ν))).decs = 0 := by
  have he := reach_stuck (Or.inl rfl) hr
  subst he
  exact ⟨rfl, rfl, rfl, rfl⟩

/-- C9 witness: the empty run under limit `1` at its initial execution. -/
theorem c9_empty_job_sequence_witness :
    Exec.running (initState ([] : List (Job Nat Nat Nat))) =
      Exec.running (initState []) ∧
    runResult (Exec.running (initState ([] : List (Job Nat Nat Nat)))) = some [] ∧
    (initState ([] : List (Job Nat Nat Nat))).submitted = [] ∧
    (initState ([] : List (Job Nat Nat Nat))).decs = 0 :=
  c9_empty_job_sequence 1 _ Relation.ReflTransGen.refl

end ParallelProcessing
